import Mathlib

/-!
Shallow embedding of the zip_plot workload-aggregation application
(`app.py`): data loading and merging (`load_and_process_data`), the
level-dissolve endpoint (`get_geospatial_data`) and the name-listing
endpoint (`get_all_names`), together with proofs of the specified
properties.

Modelling choices:
* a pandas DataFrame is a `List` of row structures, in row order;
* `groupby`/`dissolve` keys are the sorted distinct values of the key
  column (pandas groups with `sort=True`);
* polygon geometry is modelled as a finite set of points (`Finset ℕ`);
  geometric union is set union, so the union of a single geometry is
  that geometry;
* Python `str.lower` is modelled on the ASCII range, which is all the
  level dispatch ever compares;
* numeric call volumes are integers; record counts are naturals.
-/

namespace ZipPlot

/-- Configured workload capacity per territory (`TERRITORY_WORKLOAD_THRESHOLD = 250`). -/
def TERRITORY_WORKLOAD_THRESHOLD : ℕ := 250

/-- Geometry of a zone, modelled as a finite set of points. -/
abbrev Geometry := Finset ℕ

/-- Row of the shapefile source `zip_geometries` (columns `ZCTA5CE20`, `geometry`). -/
structure GeoRow where
  zcta : String
  geometry : Geometry
deriving DecidableEq

/-- Row of `call_plan.csv` (columns `zip`, `calls`, `hcpid`). -/
structure CallPlanRow where
  zip : String
  calls : Int
  hcpid : String
deriving DecidableEq

/-- Row of `hierarchy.csv` (columns `zip`, `territory`, `district`, `region`). -/
structure HierRow where
  zip : String
  territory : String
  district : String
  region : String
deriving DecidableEq

/-- Row of `zip_aggregations` after the per-zip groupby and the rename
`zip → ZCTA5CE20`: summed calls and the count of call-plan records. -/
structure AggRow where
  zcta : String
  calls : Int
  hcp_count : ℕ
deriving DecidableEq

/-- Row of `merged_df` (left join of `zip_aggregations` with the hierarchy):
hierarchy fields are `none` when the zip has no hierarchy row. -/
structure MergedRow where
  zcta : String
  calls : Int
  hcp_count : ℕ
  territory : Option String
  district : Option String
  region : Option String
deriving DecidableEq

/-- Row of `master_gdf` after the inner join with geometries and the
`fillna('Unassigned')` step. -/
structure MasterRow where
  zcta : String
  geometry : Geometry
  calls : Int
  hcp_count : ℕ
  territory : String
  district : String
  region : String
deriving DecidableEq

/-- Result row of `master_gdf.dissolve(...)` before the threshold column is added. -/
structure DissolvedUnit where
  name : String
  geometry : Geometry
  calls : Int
  hcp_count : ℕ
deriving DecidableEq

/-- Row of the `/data` response: `name, calls, hcp_count, threshold, geometry`. -/
structure AggUnit where
  name : String
  geometry : Geometry
  calls : Int
  hcp_count : ℕ
  threshold : ℕ
deriving DecidableEq

/-- Triple returned by `load_and_process_data`. -/
structure ProcessedData where
  master : List MasterRow
  district_terr_counts : List (String × ℕ)
  region_terr_counts : List (String × ℕ)
deriving DecidableEq

/-- Response of the `/names` endpoint. -/
structure AllNames where
  region : List String
  district : List String
  territory : List String
  zip : List String
deriving DecidableEq

/-- Python `str.lower` on one character, in the ASCII range. -/
def lowerChar (c : Char) : Char :=
  if 65 ≤ c.toNat ∧ c.toNat ≤ 90 then Char.ofNat (c.toNat + 32) else c

/-- Python `str.lower` (ASCII range). -/
def lowerString (s : String) : String :=
  String.mk (s.data.map lowerChar)

/-- Decidability of `String` order through the character lists, so that sort
comparisons evaluate by kernel reduction (the core iterator-based decision
procedure does not reduce). -/
instance (priority := 2000) strLeDec : DecidableRel ((· ≤ ·) : String → String → Prop) :=
  fun a b => decidable_of_iff (a.toList ≤ b.toList) String.le_iff_toList_le.symm

/-- Ascending sort of a list of strings, as Python `sorted`. -/
def sortStrings (l : List String) : List String :=
  l.insertionSort (· ≤ ·)

/-- Distinct values of a key column in the order pandas `groupby(sort=True)`
produces them: sorted and without duplicates. -/
def groupKeys (l : List String) : List String :=
  sortStrings l.dedup

/-- Per-zip aggregation of the call plan (`call_plan_df.groupby('zip').agg(...)`
followed by the rename `zip → ZCTA5CE20`): summed `calls` and the count of
rows (`hcpid` count). -/
def zip_aggregations (call_plan : List CallPlanRow) : List AggRow :=
  (groupKeys (call_plan.map (·.zip))).map fun z =>
    let rs := call_plan.filter (fun p => p.zip == z)
    { zcta := z, calls := (rs.map (·.calls)).sum, hcp_count := rs.length }

/-- District → number of distinct territories under it
(`hierarchy_df.groupby('district')['territory'].nunique().to_dict()`). -/
def district_territory_counts (hier : List HierRow) : List (String × ℕ) :=
  (groupKeys (hier.map (·.district))).map fun d =>
    (d, ((hier.filter (fun r => r.district == d)).map (·.territory)).dedup.length)

/-- Region → number of distinct territories under it
(`hierarchy_df.groupby('region')['territory'].nunique().to_dict()`). -/
def region_territory_counts (hier : List HierRow) : List (String × ℕ) :=
  (groupKeys (hier.map (·.region))).map fun g =>
    (g, ((hier.filter (fun r => r.region == g)).map (·.territory)).dedup.length)

/-- Left join of `zip_aggregations` with the hierarchy on `ZCTA5CE20`
(`pd.merge(zip_aggregations, hierarchy_df, on='ZCTA5CE20', how='left')`):
every aggregation row is kept; hierarchy fields are null when no hierarchy
row matches, and the row is repeated for every matching hierarchy row. -/
def leftMergeHierarchy (aggs : List AggRow) (hier : List HierRow) : List MergedRow :=
  aggs.flatMap fun a =>
    let hs := hier.filter (fun hr => hr.zip == a.zcta)
    if hs.isEmpty then
      [{ zcta := a.zcta, calls := a.calls, hcp_count := a.hcp_count,
         territory := none, district := none, region := none }]
    else
      hs.map fun hr =>
        { zcta := a.zcta, calls := a.calls, hcp_count := a.hcp_count,
          territory := some hr.territory, district := some hr.district,
          region := some hr.region }

/-- Inner join of the geometries with `merged_df` on `ZCTA5CE20`
(`pd.merge(zip_geometries, merged_df, on='ZCTA5CE20', how='inner')`),
followed by `fillna('Unassigned')` on the three hierarchy columns. -/
def innerMergeGeometries (geoms : List GeoRow) (merged : List MergedRow) :
    List MasterRow :=
  geoms.flatMap fun gr =>
    (merged.filter (fun mr => mr.zcta == gr.zcta)).map fun mr =>
      { zcta := gr.zcta, geometry := gr.geometry, calls := mr.calls,
        hcp_count := mr.hcp_count,
        territory := mr.territory.getD "Unassigned",
        district := mr.district.getD "Unassigned",
        region := mr.region.getD "Unassigned" }

/-- Embedding of `load_and_process_data`: builds the master dataset and the
two territory-count tables. -/
def load_and_process_data (geoms : List GeoRow) (call_plan : List CallPlanRow)
    (hier : List HierRow) : ProcessedData :=
  { master := innerMergeGeometries geoms
      (leftMergeHierarchy (zip_aggregations call_plan) hier),
    district_terr_counts := district_territory_counts hier,
    region_terr_counts := region_territory_counts hier }

/-- Value of the dissolve column for a master row: the column named by
`dissolve_col` (`territory`, `district`, `region`, or `ZCTA5CE20`). -/
def keyOfCol (col : String) (r : MasterRow) : String :=
  if col == "territory" then r.territory
  else if col == "district" then r.district
  else if col == "region" then r.region
  else r.zcta

/-- Column selected by the level dispatch in `get_geospatial_data`:
the level itself when recognized, `ZCTA5CE20` otherwise. -/
def dissolveCol (level : String) : String :=
  if level == "territory" || level == "district" || level == "region" then level
  else "ZCTA5CE20"

/-- Union of a list of geometries (shapely `unary_union` under the point-set model). -/
def unionGeoms (gs : List Geometry) : Geometry :=
  gs.foldr (· ∪ ·) ∅

/-- Embedding of `master_gdf.dissolve(by=..., aggfunc={'calls':'sum','hcp_count':'sum'})`:
one unit per distinct key, with unioned geometry and summed metrics. -/
def dissolve (rows : List MasterRow) (key : MasterRow → String) : List DissolvedUnit :=
  (groupKeys (rows.map key)).map fun k =>
    { name := k,
      geometry := unionGeoms ((rows.filter (fun r => key r == k)).map (·.geometry)),
      calls := ((rows.filter (fun r => key r == k)).map (·.calls)).sum,
      hcp_count := ((rows.filter (fun r => key r == k)).map (·.hcp_count)).sum }

/-- Threshold column assigned by `get_geospatial_data` for a given (already
lowercased) level and group name. -/
def thresholdFor (level : String) (dc rc : List (String × ℕ)) (name : String) : ℕ :=
  if level == "territory" then TERRITORY_WORKLOAD_THRESHOLD
  else if level == "district" then ((dc.lookup name).getD 0) * TERRITORY_WORKLOAD_THRESHOLD
  else if level == "region" then ((rc.lookup name).getD 0) * TERRITORY_WORKLOAD_THRESHOLD
  else 0

/-- Embedding of the `/data` endpoint `get_geospatial_data`: `levelArg` is the
request's `level` query parameter (`none` when absent, defaulted to
`'Region'` and lowercased), and the result is the list of aggregated units
with their thresholds. -/
def get_geospatial_data (levelArg : Option String) (geoms : List GeoRow)
    (call_plan : List CallPlanRow) (hier : List HierRow) : List AggUnit :=
  let pd := load_and_process_data geoms call_plan hier
  let level := lowerString (levelArg.getD "Region")
  (dissolve pd.master (keyOfCol (dissolveCol level))).map fun u =>
    { name := u.name, geometry := u.geometry, calls := u.calls,
      hcp_count := u.hcp_count,
      threshold := thresholdFor level pd.district_terr_counts pd.region_terr_counts u.name }

/-- Embedding of the `/names` endpoint `get_all_names`: sorted distinct
values of each hierarchy column of the master dataset. -/
def get_all_names (master : List MasterRow) : AllNames :=
  { region := sortStrings (master.map (·.region)).dedup,
    district := sortStrings (master.map (·.district)).dedup,
    territory := sortStrings (master.map (·.territory)).dedup,
    zip := sortStrings (master.map (·.zcta)).dedup }

/-! ### Example data used by witnesses and counterexamples -/

/-- Example geometry source: two zones. -/
def exG : List GeoRow := [⟨"z1", {0}⟩, ⟨"z2", {1}⟩]

/-- Example call plan: one record per zone. -/
def exM : List CallPlanRow := [⟨"z1", 5, "a"⟩, ⟨"z2", 7, "b"⟩]

/-- Example hierarchy: zone `z1` is mapped, zone `z2` is not. -/
def exH : List HierRow := [⟨"z1", "T1", "D1", "R1"⟩]

/-! ### Helper lemmas -/

lemma mem_groupKeys {x : String} {l : List String} : x ∈ groupKeys l ↔ x ∈ l := by
  simp [groupKeys, sortStrings, List.mem_insertionSort, List.mem_dedup]

lemma nodup_groupKeys (l : List String) : (groupKeys l).Nodup :=
  (List.perm_insertionSort _ _).nodup_iff.mpr (List.nodup_dedup l)

lemma sorted_groupKeys (l : List String) : List.Sorted (· ≤ ·) (groupKeys l) :=
  List.sorted_insertionSort _ _

lemma sum_map_ite_eq {M : Type} [AddCommMonoid M] (c : M) (x : String) :
    ∀ keys : List String, keys.Nodup → x ∈ keys →
      (keys.map (fun k => if x = k then c else 0)).sum = c := by
  intro keys
  induction keys with
  | nil => intro _ hx; cases hx
  | cons k ks ih =>
    intro hnd hx
    obtain ⟨hk, hks⟩ := List.nodup_cons.mp hnd
    rcases List.mem_cons.mp hx with rfl | hx
    · have hz : (ks.map (fun k => if x = k then c else 0)).sum = 0 := by
        apply List.sum_eq_zero
        intro y hy
        obtain ⟨k', hk', rfl⟩ := List.mem_map.mp hy
        have : x ≠ k' := fun he => hk (he ▸ hk')
        simp [this]
      simp [hz]
    · have hxk : x ≠ k := fun he => hk (he ▸ hx)
      simp [hxk, ih hks hx]

lemma sum_filter_groups {R M : Type} [AddCommMonoid M] (key : R → String) (f : R → M) :
    ∀ (rows : List R) (keys : List String), keys.Nodup →
      (∀ r ∈ rows, key r ∈ keys) →
      (keys.map (fun k => ((rows.filter (fun r => key r == k)).map f).sum)).sum
        = (rows.map f).sum := by
  intro rows
  induction rows with
  | nil => intro keys _ _; simp
  | cons r rows ih =>
    intro keys hnd hcov
    have step : keys.map
          (fun k => (((r :: rows).filter (fun r' => key r' == k)).map f).sum)
        = keys.map (fun k => (if key r = k then f r else 0)
            + ((rows.filter (fun r' => key r' == k)).map f).sum) := by
      apply List.map_congr_left
      intro k _
      by_cases hk : key r = k
      · simp [List.filter_cons, hk]
      · simp [List.filter_cons, hk]
    rw [step, List.sum_map_add, sum_map_ite_eq (f r) (key r) keys hnd
      (hcov r (List.mem_cons_self r rows)),
      ih keys hnd (fun r' hr' => hcov r' (List.mem_cons_of_mem r hr'))]
    simp

lemma filter_key_eq_singleton {R : Type} (key : R → String) :
    ∀ rows : List R, (rows.map key).Nodup → ∀ r ∈ rows,
      rows.filter (fun r' => key r' == key r) = [r] := by
  intro rows
  induction rows with
  | nil => intro _ r hr; cases hr
  | cons a rows ih =>
    intro hnd r hr
    rw [List.map_cons, List.nodup_cons] at hnd
    obtain ⟨ha, hnd'⟩ := hnd
    rcases List.mem_cons.mp hr with rfl | hr
    · have hnil : rows.filter (fun r' => key r' == key r) = [] := by
        rw [List.filter_eq_nil_iff]
        intro b hb hbeq
        exact ha (by
          have : key b = key r := by simpa using hbeq
          exact this ▸ List.mem_map_of_mem key hb)
      simp [List.filter_cons, hnil]
    · have hne : key a ≠ key r := by
        intro he
        exact ha (he ▸ List.mem_map_of_mem key hr)
      simp [List.filter_cons, hne, ih hnd' r hr]

lemma names_list_spec (f : MasterRow → String) (l : List MasterRow) :
    List.Sorted (· ≤ ·) (sortStrings (l.map f).dedup)
    ∧ (sortStrings (l.map f).dedup).Nodup
    ∧ ∀ x, x ∈ sortStrings (l.map f).dedup ↔ ∃ r ∈ l, f r = x := by
  refine ⟨List.sorted_insertionSort _ _,
    (List.perm_insertionSort _ _).nodup_iff.mpr (List.nodup_dedup _), fun x => ?_⟩
  simp [sortStrings, List.mem_insertionSort, List.mem_dedup, List.mem_map]

lemma mem_zip_aggregations (m : List CallPlanRow) (z : String) :
    (∃ a ∈ zip_aggregations m, a.zcta = z) ↔ ∃ p ∈ m, p.zip = z := by
  simp only [zip_aggregations, List.mem_map]
  constructor
  · rintro ⟨a, ⟨k, hk, rfl⟩, rfl⟩
    obtain ⟨p, hp, hpz⟩ := List.mem_map.mp (mem_groupKeys.mp hk)
    exact ⟨p, hp, hpz⟩
  · rintro ⟨p, hp, rfl⟩
    refine ⟨_, ⟨p.zip, mem_groupKeys.mpr (List.mem_map_of_mem _ hp), rfl⟩, rfl⟩

lemma mem_leftMergeHierarchy (aggs : List AggRow) (hier : List HierRow) (z : String) :
    (∃ mr ∈ leftMergeHierarchy aggs hier, mr.zcta = z) ↔ ∃ a ∈ aggs, a.zcta = z := by
  constructor
  · rintro ⟨mr, hmr, rfl⟩
    simp only [leftMergeHierarchy, List.mem_flatMap] at hmr
    obtain ⟨a, ha, hbr⟩ := hmr
    by_cases hemp : (hier.filter (fun hr => hr.zip == a.zcta)).isEmpty
    · simp only [hemp, if_pos, List.mem_singleton] at hbr
      subst hbr
      exact ⟨a, ha, rfl⟩
    · simp only [hemp, if_neg, Bool.false_eq_true, not_false_eq_true] at hbr
      obtain ⟨hr, _, rfl⟩ := List.mem_map.mp hbr
      exact ⟨a, ha, rfl⟩
  · rintro ⟨a, ha, rfl⟩
    by_cases hemp : (hier.filter (fun hr => hr.zip == a.zcta)).isEmpty
    · refine ⟨⟨a.zcta, a.calls, a.hcp_count, none, none, none⟩,
        List.mem_flatMap.mpr ⟨a, ha, ?_⟩, rfl⟩
      simp only [hemp, if_pos]
      exact List.mem_cons_self _ _
    · have hne : hier.filter (fun hr => hr.zip == a.zcta) ≠ [] := by
        intro he
        rw [he] at hemp
        exact hemp rfl
      obtain ⟨hr, hhr⟩ := List.exists_mem_of_ne_nil _ hne
      refine ⟨⟨a.zcta, a.calls, a.hcp_count, some hr.territory, some hr.district,
        some hr.region⟩, List.mem_flatMap.mpr ⟨a, ha, ?_⟩, rfl⟩
      simp only [hemp, if_neg, Bool.false_eq_true, not_false_eq_true]
      exact List.mem_map_of_mem _ hhr

lemma mem_master (g : List GeoRow) (m : List CallPlanRow) (h : List HierRow)
    (z : String) :
    (∃ r ∈ (load_and_process_data g m h).master, r.zcta = z)
      ↔ (∃ p ∈ m, p.zip = z) ∧ (∃ gr ∈ g, gr.zcta = z) := by
  constructor
  · rintro ⟨r, hr, rfl⟩
    simp only [load_and_process_data, innerMergeGeometries, List.mem_flatMap] at hr
    obtain ⟨gr, hgr, hmem⟩ := hr
    obtain ⟨mr, hmrf, rfl⟩ := List.mem_map.mp hmem
    obtain ⟨hmr, hzeq⟩ := List.mem_filter.mp hmrf
    have hz : mr.zcta = gr.zcta := by simpa using hzeq
    refine ⟨?_, ⟨gr, hgr, rfl⟩⟩
    have : ∃ a ∈ zip_aggregations m, a.zcta = gr.zcta :=
      (mem_leftMergeHierarchy _ _ _).mp ⟨mr, hmr, hz⟩
    exact (mem_zip_aggregations _ _).mp this
  · rintro ⟨hp, gr, hgr, rfl⟩
    obtain ⟨mr, hmr, hz⟩ := (mem_leftMergeHierarchy (zip_aggregations m) h _).mpr
      ((mem_zip_aggregations m _).mpr hp)
    refine ⟨⟨gr.zcta, gr.geometry, mr.calls, mr.hcp_count,
      mr.territory.getD "Unassigned", mr.district.getD "Unassigned",
      mr.region.getD "Unassigned"⟩, ?_, rfl⟩
    simp only [load_and_process_data, innerMergeGeometries, List.mem_flatMap]
    exact ⟨gr, hgr, List.mem_map_of_mem _ (List.mem_filter.mpr ⟨hmr, by simp [hz]⟩)⟩

lemma master_unmapped_fields (g : List GeoRow) (m : List CallPlanRow)
    (h : List HierRow) :
    ∀ r ∈ (load_and_process_data g m h).master, (∀ hr ∈ h, hr.zip ≠ r.zcta) →
      r.territory = "Unassigned" ∧ r.district = "Unassigned"
        ∧ r.region = "Unassigned" := by
  intro r hr hno
  simp only [load_and_process_data, innerMergeGeometries, List.mem_flatMap] at hr
  obtain ⟨gr, _, hmem⟩ := hr
  obtain ⟨mr, hmrf, rfl⟩ := List.mem_map.mp hmem
  obtain ⟨hmr, hzeq⟩ := List.mem_filter.mp hmrf
  have hz : mr.zcta = gr.zcta := by simpa using hzeq
  simp only [leftMergeHierarchy, List.mem_flatMap] at hmr
  obtain ⟨a, _, hbr⟩ := hmr
  by_cases hemp : (h.filter (fun hr => hr.zip == a.zcta)).isEmpty
  · simp only [hemp, if_pos, List.mem_singleton] at hbr
    subst hbr
    exact ⟨rfl, rfl, rfl⟩
  · simp only [hemp, if_neg, Bool.false_eq_true, not_false_eq_true] at hbr
    obtain ⟨hrow, hhrow, rfl⟩ := List.mem_map.mp hbr
    obtain ⟨hhr, hhz⟩ := List.mem_filter.mp hhrow
    have : hrow.zip = a.zcta := by simpa using hhz
    exact absurd (hz ▸ this) (hno hrow hhr)

/-! ### Claim theorems -/

/-- C4: the district-to-distinct-territory-count table and the
region-to-distinct-territory-count table returned by `load_and_process_data`
are computed from the raw hierarchy rows alone, before any join, so they are
identical regardless of the geometry and metrics inputs. -/
theorem count_tables_from_raw_hierarchy (g₁ g₂ : List GeoRow)
    (m₁ m₂ : List CallPlanRow) (h : List HierRow) :
    (load_and_process_data g₁ m₁ h).district_terr_counts
        = (load_and_process_data g₂ m₂ h).district_terr_counts
    ∧ (load_and_process_data g₁ m₁ h).region_terr_counts
        = (load_and_process_data g₂ m₂ h).region_terr_counts
    ∧ (load_and_process_data g₁ m₁ h).district_terr_counts
        = district_territory_counts h
    ∧ (load_and_process_data g₁ m₁ h).region_terr_counts
        = region_territory_counts h :=
  ⟨rfl, rfl, rfl, rfl⟩

/-- C10: when the request supplies no `level` argument, `get_geospatial_data`
defaults to `'Region'` (lowercased to `region`), so the result equals the
explicit region-level request: groups are keyed by the `region` field and
thresholds use the region territory-count table. -/
theorem default_level_is_region (g : List GeoRow) (m : List CallPlanRow)
    (h : List HierRow) :
    get_geospatial_data none g m h = get_geospatial_data (some "region") g m h
    ∧ get_geospatial_data none g m h
        = (dissolve (load_and_process_data g m h).master (fun r => r.region)).map
            (fun u => ⟨u.name, u.geometry, u.calls, u.hcp_count,
              (((region_territory_counts h).lookup u.name).getD 0)
                * TERRITORY_WORKLOAD_THRESHOLD⟩) :=
  ⟨rfl, rfl⟩

/-- C6: at territory level every aggregated unit, whatever its name
(including `"Unassigned"`), receives the constant threshold
`TERRITORY_WORKLOAD_THRESHOLD = 250`. -/
theorem territory_threshold_constant (g : List GeoRow) (m : List CallPlanRow)
    (h : List HierRow) :
    ∀ u ∈ get_geospatial_data (some "territory") g m h,
      u.threshold = TERRITORY_WORKLOAD_THRESHOLD := by
  intro u hu
  simp only [get_geospatial_data, List.mem_map] at hu
  obtain ⟨u', _, rfl⟩ := hu
  rfl

/-- C6 witness: on the example data the territory-level output contains an
`"Unassigned"` unit, and its threshold is 250. -/
theorem territory_threshold_constant_witness :
    (⟨"Unassigned", {1}, 7, 1, 250⟩ : AggUnit)
        ∈ get_geospatial_data (some "territory") exG exM exH
    ∧ (⟨"Unassigned", {1}, 7, 1, 250⟩ : AggUnit).threshold
        = TERRITORY_WORKLOAD_THRESHOLD :=
  ⟨by decide, territory_threshold_constant exG exM exH _ (by decide)⟩

/-- C5: at district level every aggregated unit named `D` has threshold
`T * district_territory_counts.get(D, 0)` where `T = 250` and the count
comes from the raw hierarchy; a name absent from the count table gets 0. -/
theorem district_threshold_rule (g : List GeoRow) (m : List CallPlanRow)
    (h : List HierRow) :
    ∀ u ∈ get_geospatial_data (some "district") g m h,
      u.threshold = TERRITORY_WORKLOAD_THRESHOLD
          * (((district_territory_counts h).lookup u.name).getD 0)
      ∧ ((district_territory_counts h).lookup u.name = none → u.threshold = 0) := by
  intro u hu
  simp only [get_geospatial_data, List.mem_map] at hu
  obtain ⟨u', _, rfl⟩ := hu
  refine ⟨Nat.mul_comm _ _, fun hnone => ?_⟩
  show thresholdFor "district" (district_territory_counts h)
      (region_territory_counts h) u'.name = 0
  simp [thresholdFor, hnone]

/-- C5 witness: on the example data, the district unit `D1` has threshold
`250 * 1` and the `Unassigned` district unit (absent from the table) has
threshold 0. -/
theorem district_threshold_rule_witness :
    ((⟨"D1", {0}, 5, 1, 250⟩ : AggUnit)
        ∈ get_geospatial_data (some "district") exG exM exH
      ∧ (⟨"D1", {0}, 5, 1, 250⟩ : AggUnit).threshold
          = TERRITORY_WORKLOAD_THRESHOLD
              * (((district_territory_counts exH).lookup "D1").getD 0))
    ∧ ((⟨"Unassigned", {1}, 7, 1, 0⟩ : AggUnit)
        ∈ get_geospatial_data (some "district") exG exM exH
      ∧ (district_territory_counts exH).lookup "Unassigned" = none
      ∧ (⟨"Unassigned", {1}, 7, 1, 0⟩ : AggUnit).threshold = 0) :=
  ⟨⟨by decide, (district_threshold_rule exG exM exH _ (by decide)).1⟩,
   ⟨by decide, by decide,
    (district_threshold_rule exG exM exH _ (by decide)).2 (by decide)⟩⟩

/-- C1 counterexample: the claim that the threshold of an `"Unassigned"`
group is 0 at every level fails at territory level: on the example data the
territory-level output contains an `"Unassigned"` unit with threshold 250. -/
theorem unassigned_threshold_cex :
    ∃ u ∈ get_geospatial_data (some "territory") exG exM exH,
      u.name = "Unassigned" ∧ u.threshold ≠ 0 := by decide

/-- C1 amended: provided `"Unassigned"` does not occur as a district or
region name in the raw hierarchy (so it is absent from both count tables),
an aggregated unit named `"Unassigned"` has threshold 0 at the zone,
district and region levels (and at any unrecognized level), while at the
territory level it receives the constant threshold 250 like every other
territory group. -/
theorem unassigned_threshold_amended (g : List GeoRow) (m : List CallPlanRow)
    (h : List HierRow) (lv : Option String)
    (hd : (district_territory_counts h).lookup "Unassigned" = none)
    (hr : (region_territory_counts h).lookup "Unassigned" = none) :
    ∀ u ∈ get_geospatial_data lv g m h, u.name = "Unassigned" →
      u.threshold = if lowerString (lv.getD "Region") = "territory"
        then TERRITORY_WORKLOAD_THRESHOLD else 0 := by
  intro u hu hname
  simp only [get_geospatial_data, List.mem_map] at hu
  obtain ⟨u', _, rfl⟩ := hu
  have hn : u'.name = "Unassigned" := hname
  show thresholdFor (lowerString (lv.getD "Region")) (district_territory_counts h)
      (region_territory_counts h) u'.name = _
  by_cases h1 : lowerString (lv.getD "Region") = "territory"
  · simp [thresholdFor, h1]
  · by_cases h2 : lowerString (lv.getD "Region") = "district"
    · simp [thresholdFor, h1, h2, hn, hd]
    · by_cases h3 : lowerString (lv.getD "Region") = "region"
      · simp [thresholdFor, h1, h2, h3, hn, hr]
      · simp [thresholdFor, h1, h2, h3]

/-- C1 amended witness: on the example data, whose hierarchy does not use the
name `"Unassigned"`, the district-level `"Unassigned"` unit has threshold 0. -/
theorem unassigned_threshold_amended_witness :
    (district_territory_counts exH).lookup "Unassigned" = none
    ∧ (region_territory_counts exH).lookup "Unassigned" = none
    ∧ (⟨"Unassigned", {1}, 7, 1, 0⟩ : AggUnit)
        ∈ get_geospatial_data (some "district") exG exM exH
    ∧ (⟨"Unassigned", {1}, 7, 1, 0⟩ : AggUnit).threshold
        = (if lowerString ((some "district").getD "Region") = "territory"
            then TERRITORY_WORKLOAD_THRESHOLD else 0) :=
  ⟨by decide, by decide, by decide,
   unassigned_threshold_amended exG exM exH (some "district") (by decide) (by decide)
     _ (by decide) rfl⟩

/-- C2: the level argument is matched case-insensitively (only its lowercased
form matters), any value whose lowercased form is not one of
`zone, territory, district, region` produces exactly the zone-level result
(no error: the function is total and returns the zone-level grouping), and
the zone-level result groups by zone id with threshold 0. -/
theorem level_dispatch_fallback (g : List GeoRow) (m : List CallPlanRow)
    (h : List HierRow) (s t : String) :
    (lowerString s = lowerString t →
      get_geospatial_data (some s) g m h = get_geospatial_data (some t) g m h)
    ∧ (lowerString s ∉ (["zone", "territory", "district", "region"] : List String) →
      get_geospatial_data (some s) g m h = get_geospatial_data (some "zone") g m h)
    ∧ get_geospatial_data (some "zone") g m h
        = (dissolve (load_and_process_data g m h).master (fun r => r.zcta)).map
            (fun u => ⟨u.name, u.geometry, u.calls, u.hcp_count, 0⟩) := by
  refine ⟨fun he => ?_, fun hmem => ?_, rfl⟩
  · simp only [get_geospatial_data, Option.getD_some]
    rw [he]
  · have h2 : lowerString s ≠ "territory" := fun he => hmem (by simp [he])
    have h3 : lowerString s ≠ "district" := fun he => hmem (by simp [he])
    have h4 : lowerString s ≠ "region" := fun he => hmem (by simp [he])
    have hc : dissolveCol (lowerString s) = "ZCTA5CE20" := by
      simp [dissolveCol, h2, h3, h4]
    simp only [get_geospatial_data, Option.getD_some]
    rw [hc]
    show (dissolve _ _).map _ = (dissolve _ (keyOfCol (dissolveCol (lowerString "zone")))).map _
    have hz : lowerString "zone" = "zone" := rfl
    rw [hz]
    have hcz : dissolveCol "zone" = "ZCTA5CE20" := rfl
    rw [hcz]
    apply List.map_congr_left
    intro u _
    simp [thresholdFor, h2, h3, h4]

/-- C2 witness: the unrecognized level `"FOO"` lowercases to `"foo"`, gives
the same result as `"foo"`, and falls back to the zone-level result. -/
theorem level_dispatch_fallback_witness :
    (lowerString "FOO" = lowerString "foo"
      ∧ get_geospatial_data (some "FOO") exG exM exH
          = get_geospatial_data (some "foo") exG exM exH)
    ∧ (lowerString "FOO" ∉ (["zone", "territory", "district", "region"] : List String)
      ∧ get_geospatial_data (some "FOO") exG exM exH
          = get_geospatial_data (some "zone") exG exM exH) :=
  ⟨⟨by decide, (level_dispatch_fallback exG exM exH "FOO" "foo").1 (by decide)⟩,
   ⟨by decide, (level_dispatch_fallback exG exM exH "FOO" "foo").2.1 (by decide)⟩⟩

/-- C3: a zone appears in the master dataset iff it has both at least one
call-plan record and a geometry entry (the inner join keeps exactly the
intersection, the left join keeps hierarchy optional), and a retained zone
lacking any hierarchy mapping has all three hierarchy fields set to the
sentinel `"Unassigned"`. -/
theorem master_join_semantics (g : List GeoRow) (m : List CallPlanRow)
    (h : List HierRow) (z : String) :
    ((∃ r ∈ (load_and_process_data g m h).master, r.zcta = z)
        ↔ (∃ p ∈ m, p.zip = z) ∧ (∃ gr ∈ g, gr.zcta = z))
    ∧ ∀ r ∈ (load_and_process_data g m h).master, (∀ hr ∈ h, hr.zip ≠ r.zcta) →
        r.territory = "Unassigned" ∧ r.district = "Unassigned"
          ∧ r.region = "Unassigned" :=
  ⟨mem_master g m h z, master_unmapped_fields g m h⟩

/-- C3 witness: on the example data the unmapped zone `z2` is retained with
all hierarchy fields `"Unassigned"`, and membership matches the joins. -/
theorem master_join_semantics_witness :
    ((∃ r ∈ (load_and_process_data exG exM exH).master, r.zcta = "z2")
      ↔ (∃ p ∈ exM, p.zip = "z2") ∧ (∃ gr ∈ exG, gr.zcta = "z2"))
    ∧ ((⟨"z2", {1}, 7, 1, "Unassigned", "Unassigned", "Unassigned"⟩ : MasterRow)
        ∈ (load_and_process_data exG exM exH).master
      ∧ (⟨"z2", {1}, 7, 1, "Unassigned", "Unassigned", "Unassigned"⟩ : MasterRow).territory
          = "Unassigned"
      ∧ (⟨"z2", {1}, 7, 1, "Unassigned", "Unassigned", "Unassigned"⟩ : MasterRow).district
          = "Unassigned"
      ∧ (⟨"z2", {1}, 7, 1, "Unassigned", "Unassigned", "Unassigned"⟩ : MasterRow).region
          = "Unassigned") :=
  ⟨(master_join_semantics exG exM exH "z2").1,
   by decide,
   (master_join_semantics exG exM exH "z2").2 _ (by decide) (by decide)⟩

/-- C9: `get_all_names` returns exactly four lists — one per level (the zone
level appears under the `zip` key of the response) — each sorted ascending,
without duplicates, and containing exactly the values occurring in the
post-join master dataset, so labels of zones dropped by the inner join never
appear. -/
theorem get_all_names_spec (g : List GeoRow) (m : List CallPlanRow)
    (h : List HierRow) :
    (List.Sorted (· ≤ ·) (get_all_names (load_and_process_data g m h).master).region
      ∧ (get_all_names (load_and_process_data g m h).master).region.Nodup
      ∧ ∀ x, x ∈ (get_all_names (load_and_process_data g m h).master).region
          ↔ ∃ r ∈ (load_and_process_data g m h).master, r.region = x)
    ∧ (List.Sorted (· ≤ ·) (get_all_names (load_and_process_data g m h).master).district
      ∧ (get_all_names (load_and_process_data g m h).master).district.Nodup
      ∧ ∀ x, x ∈ (get_all_names (load_and_process_data g m h).master).district
          ↔ ∃ r ∈ (load_and_process_data g m h).master, r.district = x)
    ∧ (List.Sorted (· ≤ ·) (get_all_names (load_and_process_data g m h).master).territory
      ∧ (get_all_names (load_and_process_data g m h).master).territory.Nodup
      ∧ ∀ x, x ∈ (get_all_names (load_and_process_data g m h).master).territory
          ↔ ∃ r ∈ (load_and_process_data g m h).master, r.territory = x)
    ∧ (List.Sorted (· ≤ ·) (get_all_names (load_and_process_data g m h).master).zip
      ∧ (get_all_names (load_and_process_data g m h).master).zip.Nodup
      ∧ ∀ x, x ∈ (get_all_names (load_and_process_data g m h).master).zip
          ↔ ∃ r ∈ (load_and_process_data g m h).master, r.zcta = x) :=
  ⟨names_list_spec _ _, names_list_spec _ _, names_list_spec _ _, names_list_spec _ _⟩

lemma dissolve_calls_sum (rows : List MasterRow) (key : MasterRow → String) :
    ((dissolve rows key).map (fun u => u.calls)).sum
      = (rows.map (fun r => r.calls)).sum := by
  unfold dissolve
  rw [List.map_map]
  exact sum_filter_groups key (fun r => r.calls) rows (groupKeys (rows.map key))
    (nodup_groupKeys _) (fun r hr => mem_groupKeys.mpr (List.mem_map_of_mem key hr))

lemma dissolve_hcp_sum (rows : List MasterRow) (key : MasterRow → String) :
    ((dissolve rows key).map (fun u => u.hcp_count)).sum
      = (rows.map (fun r => r.hcp_count)).sum := by
  unfold dissolve
  rw [List.map_map]
  exact sum_filter_groups key (fun r => r.hcp_count) rows (groupKeys (rows.map key))
    (nodup_groupKeys _) (fun r hr => mem_groupKeys.mpr (List.mem_map_of_mem key hr))

/-- C7: for every level argument, the sum of `calls` over the aggregated
units equals the sum of `calls` over the master rows, and likewise for
`hcp_count` (the activity count): the dissolve conserves both metrics. -/
theorem dissolve_mass_conservation (lv : Option String) (g : List GeoRow)
    (m : List CallPlanRow) (h : List HierRow) :
    ((get_geospatial_data lv g m h).map (fun u => u.calls)).sum
        = ((load_and_process_data g m h).master.map (fun r => r.calls)).sum
    ∧ ((get_geospatial_data lv g m h).map (fun u => u.hcp_count)).sum
        = ((load_and_process_data g m h).master.map (fun r => r.hcp_count)).sum := by
  constructor
  · simp only [get_geospatial_data, List.map_map]
    exact dissolve_calls_sum _ _
  · simp only [get_geospatial_data, List.map_map]
    exact dissolve_hcp_sum _ _

lemma dissolve_nodup_perm (rows : List MasterRow) (key : MasterRow → String)
    (hnd : (rows.map key).Nodup) :
    List.Perm (dissolve rows key)
      (rows.map (fun r => ⟨key r, r.geometry, r.calls, r.hcp_count⟩)) := by
  unfold dissolve
  rw [groupKeys, List.dedup_eq_self.mpr hnd]
  refine ((List.perm_insertionSort _ _).map _).trans ?_
  have he : (rows.map key).map (fun k =>
        ({ name := k,
           geometry := unionGeoms ((rows.filter (fun r => key r == k)).map (·.geometry)),
           calls := ((rows.filter (fun r => key r == k)).map (·.calls)).sum,
           hcp_count := ((rows.filter (fun r => key r == k)).map (·.hcp_count)).sum }
          : DissolvedUnit))
      = rows.map (fun r => ⟨key r, r.geometry, r.calls, r.hcp_count⟩) := by
    rw [List.map_map]
    apply List.map_congr_left
    intro r hr
    simp only [Function.comp_apply]
    rw [filter_key_eq_singleton key rows hnd r hr]
    simp [unionGeoms]
  rw [he]

/-- C8: given unique zone identifiers in the master dataset, the zone-level
aggregation is a bijection: the aggregated units are, up to order, exactly
one unit per master row carrying the same name, geometry, calls and
activity count (with threshold 0). -/
theorem zone_dissolve_bijection (g : List GeoRow) (m : List CallPlanRow)
    (h : List HierRow)
    (hnd : ((load_and_process_data g m h).master.map (fun r => r.zcta)).Nodup) :
    List.Perm (get_geospatial_data (some "zone") g m h)
      ((load_and_process_data g m h).master.map
        (fun r => ⟨r.zcta, r.geometry, r.calls, r.hcp_count, 0⟩)) := by
  have hperm := dissolve_nodup_perm (load_and_process_data g m h).master
    (fun r => r.zcta) hnd
  show List.Perm
    ((dissolve (load_and_process_data g m h).master (fun r => r.zcta)).map
      (fun u => AggUnit.mk u.name u.geometry u.calls u.hcp_count 0))
    ((load_and_process_data g m h).master.map
      (fun r => AggUnit.mk r.zcta r.geometry r.calls r.hcp_count 0))
  refine (hperm.map (fun u => AggUnit.mk u.name u.geometry u.calls u.hcp_count 0)).trans ?_
  rw [List.map_map]
  exact List.Perm.refl _

/-- C8 witness: the example master dataset has unique zone ids, and the
zone-level output is a permutation of the per-row units. -/
theorem zone_dissolve_bijection_witness :
    ((load_and_process_data exG exM exH).master.map (fun r => r.zcta)).Nodup
    ∧ List.Perm (get_geospatial_data (some "zone") exG exM exH)
        ((load_and_process_data exG exM exH).master.map
          (fun r => ⟨r.zcta, r.geometry, r.calls, r.hcp_count, 0⟩)) :=
  ⟨by decide, zone_dissolve_bijection exG exM exH (by decide)⟩

end ZipPlot
